import Mathlib

set_option maxHeartbeats 1000000
set_option autoImplicit false

/-! Shallow embedding of `src/ssh/sshr.go` (package `ssh` of sshr.crypto):
the SSH reverse-proxy user-authentication bridge.

Byte strings are modelled as `List Nat`.  Helpers of the transport library
that live in the repository outside `src/` (the SSH wire codec, key parsers,
`buildDataSignedForAuth`, `PublicKeys`) are either abstracted into an `Env`
record of oracles, or — where the claims need a concrete wire layout —
modelled from the spec; each such definition says so in its doc comment.
Packet I/O is modelled by explicit packet lists: reads consume a list of
incoming packets (an exhausted list is a read error), writes are collected
into trace lists.  Indexing `packet[0]` is modelled by `List.head?`, with a
distinguished out-of-bounds outcome when the packet is empty; the nil
pointer dereference reachable in `handleAuthMsg` (see `HandleResult`) is
likewise modelled by a distinguished crash outcome. -/

abbrev Bytes := List Nat

/-- SSH message number `SSH_MSG_USERAUTH_REQUEST` (RFC 4252). -/
def msgUserAuthRequest : Nat := 50

/-- SSH message number `SSH_MSG_USERAUTH_FAILURE`. -/
def msgUserAuthFailure : Nat := 51

/-- SSH message number `SSH_MSG_USERAUTH_SUCCESS`. -/
def msgUserAuthSuccess : Nat := 52

/-- SSH message number `SSH_MSG_USERAUTH_BANNER`. -/
def msgUserAuthBanner : Nat := 53

/-- SSH message number `SSH_MSG_USERAUTH_PK_OK`. -/
def msgUserAuthPubKeyOk : Nat := 60

/-- The bytes of the string `"publickey"`. -/
def methodPublickey : Bytes := [112, 117, 98, 108, 105, 99, 107, 101, 121]

/-- The bytes of the string `"password"`. -/
def methodPassword : Bytes := [112, 97, 115, 115, 119, 111, 114, 100]

/-- The bytes of the string `"none"`. -/
def methodNone : Bytes := [110, 111, 110, 101]

/-- The bytes of the string `"ssh-connection"` (`serviceSSH` in the source). -/
def serviceSSH : Bytes := [115, 115, 104, 45, 99, 111, 110, 110, 101, 99, 116, 105, 111, 110]

/-- The bytes of the string `"ssh-userauth"` (`serviceUserAuth` in the source). -/
def serviceUserAuth : Bytes := [115, 115, 104, 45, 117, 115, 101, 114, 97, 117, 116, 104]

/-- The bytes of the file name `"authorized_keys"` (`userAuthorizedKeysFile`). -/
def userAuthorizedKeysFile : Bytes :=
  [97, 117, 116, 104, 111, 114, 105, 122, 101, 100, 95, 107, 101, 121, 115]

/-- The bytes of the file name `"id_rsa"` (`userPrivateKeyFile`). -/
def userPrivateKeyFile : Bytes := [105, 100, 95, 114, 115, 97]

/-- Modelled from the spec (§6 wire protocol): the 4-byte big-endian length
word of the SSH string encoding.  The encoder lives outside `src/`. -/
def marshalUint32 (n : Nat) : Bytes :=
  [n / 16777216 % 256, n / 65536 % 256, n / 256 % 256, n % 256]

/-- Modelled from the spec (§3, §6): SSH `string` encoding — a 4-byte
big-endian length followed by the payload bytes.  Corresponds to
`marshalString` of the transport library, which lives outside `src/`. -/
def marshalString (s : Bytes) : Bytes := marshalUint32 s.length ++ s

/-- Modelled from the spec (§3, §6): SSH `string` decoding — reads a 4-byte
big-endian length, then that many payload bytes; fails when the input is too
short.  Corresponds to `parseString` of the transport library (outside
`src/`). -/
def parseString : Bytes → Option (Bytes × Bytes)
  | b0 :: b1 :: b2 :: b3 :: rest =>
    let n := ((b0 * 256 + b1) * 256 + b2) * 256 + b3
    if n ≤ rest.length then some (rest.take n, rest.drop n) else none
  | _ => none

/-- An SSH signature: `(format, blob)` (spec §3; `Signature` of the
transport library). -/
structure Signature where
  format : Bytes
  blob : Bytes
deriving DecidableEq

/-- A public key: algorithm name (`Type()`), marshaled blob (`Marshal()`),
and a verification oracle (`Verify(data, sig)`; `true` models a nil error). -/
structure PublicKey where
  typ : Bytes
  marshal : Bytes
  verify : Bytes → Signature → Bool

/-- A signer: holder of private material bound to one public key;
`sign data` models `Sign(rand, data)` with the transport's random source
folded in (`none` models a signing error). -/
structure Signer where
  publicKey : PublicKey
  sign : Bytes → Option Signature

/-- `userAuthRequestMsg`: a parsed `SSH_MSG_USERAUTH_REQUEST`
(user, service, method, method-specific payload). -/
structure UserAuthRequestMsg where
  User : Bytes
  Service : Bytes
  Method : Bytes
  Payload : Bytes
deriving DecidableEq

/-- `publickeyAuthMsg`: the message `signAgain` constructs before
marshaling (user, service, method, has-sig flag, algorithm name, public-key
blob, raw signature bytes). -/
structure PublickeyAuthMsg where
  User : Bytes
  Service : Bytes
  Method : Bytes
  HasSig : Bool
  Algoname : Bytes
  PubKey : Bytes
  Sig : Bytes

/-- Modelled from the spec (§3, §6): `Marshal` of a `userAuthRequestMsg` —
type byte 50, three SSH strings, then the raw payload (a rest field).  The
reflection-based `Marshal` lives outside `src/`. -/
def marshalUserAuthRequestMsg (m : UserAuthRequestMsg) : Bytes :=
  msgUserAuthRequest ::
    (marshalString m.User ++ marshalString m.Service ++ marshalString m.Method ++ m.Payload)

/-- Modelled from the spec (§3, §6): `Unmarshal` of a packet into a
`userAuthRequestMsg` — checks the type byte 50, parses three SSH strings,
and takes the remaining bytes as the payload (a rest field). -/
def unmarshalUserAuthRequestMsg (packet : Bytes) : Option UserAuthRequestMsg :=
  match packet with
  | [] => none
  | t :: rest =>
    if t = msgUserAuthRequest then
      match parseString rest with
      | none => none
      | some (user, r1) =>
        match parseString r1 with
        | none => none
        | some (service, r2) =>
          match parseString r2 with
          | none => none
          | some (method, payload) => some ⟨user, service, method, payload⟩
    else none

/-- Modelled from the spec (§3): `Marshal` of a `publickeyAuthMsg` — type
byte 50, user/service/method strings, the has-sig byte, algorithm and blob
strings, then the raw signature bytes (a rest field). -/
def marshalPublickeyAuthMsg (m : PublickeyAuthMsg) : Bytes :=
  msgUserAuthRequest ::
    (marshalString m.User ++ marshalString m.Service ++ marshalString m.Method
      ++ [if m.HasSig then 1 else 0]
      ++ marshalString m.Algoname ++ marshalString m.PubKey ++ m.Sig)

/-- Modelled from the spec (§3): `Marshal` of a `Signature` — format string
followed by blob string. -/
def marshalSignature (s : Signature) : Bytes := marshalString s.format ++ marshalString s.blob

/-- `Marshal` of the `userAuthFailureMsg` built by `sendFailureMsg`: type
byte 51, the name-list holding the single attempted method, and the
partial-success byte 0.  Modelled from the spec (§6 wire protocol); the
encoder lives outside `src/`. -/
def marshalUserAuthFailureMsg (method : Bytes) : Bytes :=
  msgUserAuthFailure :: (marshalString method ++ [0])

/-- `Marshal` of the `userAuthPubKeyOkMsg` built by `sendOKMsg`: type byte
60, the key's algorithm name and marshaled blob.  Modelled from the spec
(§6 wire protocol). -/
def marshalUserAuthPubKeyOkMsg (key : PublicKey) : Bytes :=
  msgUserAuthPubKeyOk :: (marshalString key.typ ++ marshalString key.marshal)

/-- A filesystem entry: permission bits and contents. -/
structure FileInfo where
  mode : Nat
  contents : Bytes

/-- A filesystem: full path ↦ file, `none` when the file cannot be opened. -/
abbrev FS := Bytes → Option FileInfo

/-- `userSpecFile`: builds `/home/<username>/.ssh/<file>`
(47 is `/`; the other constants spell `home` and `.ssh`). -/
def userSpecFile (username file : Bytes) : Bytes :=
  [47, 104, 111, 109, 101, 47] ++ username ++ [47, 46, 115, 115, 104, 47] ++ file

/-- `userFile.read`: `ioutil.ReadFile` of the user-specific path.  Note the
source reads the file directly; it performs no permission check here. -/
def userFileRead (fs : FS) (file username : Bytes) : Option Bytes :=
  (fs (userSpecFile username file)).map FileInfo.contents

/-- `userFile.checkPermission`: opens the user-specific file and refuses
(`false`, modelling a returned error) when any bit of `0o077` (= 63) is set
in its permission mode. -/
def checkPermission (fs : FS) (file username : Bytes) : Bool :=
  match fs (userSpecFile username file) with
  | none => false
  | some fi => fi.mode &&& 63 = 0

/-- `fetchAuthorizedKeysFromHomeDir`: reads
`/home/<username>/.ssh/authorized_keys`. -/
def fetchAuthorizedKeysFromHomeDir (fs : FS) (username : Bytes) : Option Bytes :=
  userFileRead fs userAuthorizedKeysFile username

/-- `fetchPrivateKeyFromHomeDir`: reads `/home/<username>/.ssh/id_rsa`. -/
def fetchPrivateKeyFromHomeDir (fs : FS) (username : Bytes) : Option Bytes :=
  userFileRead fs userPrivateKeyFile username

/-- The external oracles and configuration `handleAuthMsg` depends on:
the transport library's parsers (which live outside `src/`), the two
configuration hooks, the master-key switch, and the filesystem. -/
structure Env where
  isAcceptableAlgo : Bytes → Bool
  parsePublicKey : Bytes → Option PublicKey
  parseSignature : Bytes → Option (Signature × Bytes)
  parseAuthorizedKey : Bytes → Option (PublicKey × Bytes)
  parsePrivateKey : Bytes → Option Signer
  fetchAuthorizedKeysHook : Option (Bytes → Option Bytes)
  fetchPrivateKeyHook : Option (Bytes → Option Bytes)
  useMasterKey : Bool
  masterKeyFile : Option Bytes
  fs : FS

/-- A proxy connection: the recorded user name and the session IDs of the
two transports (`p.User`, `p.Downstream.transport.getSessionID()`,
`p.Upstream.transport.getSessionID()`). -/
structure ProxyConn where
  user : Bytes
  downstreamSessionID : Bytes
  upstreamSessionID : Bytes

/-- `fetchPrivateKey`: master key if `UseMasterKey`, else the hook when
configured, else the home-directory `id_rsa`. -/
def fetchPrivateKey (env : Env) (username : Bytes) : Option Bytes :=
  if env.useMasterKey then env.masterKeyFile
  else
    match env.fetchPrivateKeyHook with
    | none => fetchPrivateKeyFromHomeDir env.fs username
    | some hook => hook username

/-- The authorized-keys fetch `handleAuthMsg` performs: the configured hook,
defaulting to `fetchAuthorizedKeysFromHomeDir` when the hook is nil. -/
def fetchAuthorizedKeys (env : Env) (username : Bytes) : Option Bytes :=
  (env.fetchAuthorizedKeysHook.getD (fetchAuthorizedKeysFromHomeDir env.fs)) username

/-- Result of `parsePublicKeyMsg`: a query (has-sig byte 0) carries no
signature; a signed attempt carries one. -/
inductive ParsedPK where
  | query (pk : PublicKey)
  | signed (pk : PublicKey) (sig : Signature)

/-- `parsePublicKeyMsg`: decomposes a publickey user-auth request —
has-sig byte, algorithm string (must be acceptable), public-key string
(must parse), and for a signed attempt the signature with no trailing
bytes.  `none` models any of the source's error returns. -/
def parsePublicKeyMsg (env : Env) (userAuthReq : UserAuthRequestMsg) : Option ParsedPK :=
  if userAuthReq.Method = methodPublickey then
    match userAuthReq.Payload with
    | [] => none
    | b :: rest =>
      let isQuery := b = 0
      match parseString rest with
      | none => none
      | some (algoBytes, payload) =>
        if env.isAcceptableAlgo algoBytes then
          match parseString payload with
          | none => none
          | some (pubKeyData, payload2) =>
            match env.parsePublicKey pubKeyData with
            | none => none
            | some publicKey =>
              if isQuery then some (.query publicKey)
              else
                match env.parseSignature payload2 with
                | none => none
                | some (sig, payload3) =>
                  if payload3.length > 0 then none else some (.signed publicKey sig)
        else none
  else none

/-- Fuelled body of `checkPublicKeyRegistration`'s scan loop.  The Go loop
runs while bytes remain; the fuel only matters when the authorized-key
parser fails to consume input (then the Go loop would not terminate), and
exhausted fuel is reported as an error. -/
def checkPKRAux (parseAK : Bytes → Option (PublicKey × Bytes)) (publicKeyData : Bytes) :
    Nat → Bytes → Option Bool
  | 0, authKeys => if authKeys.isEmpty then some false else none
  | fuel + 1, authKeys =>
    if authKeys.isEmpty then some false
    else
      match parseAK authKeys with
      | none => none
      | some (authorizedPublicKey, rest) =>
        if authorizedPublicKey.marshal = publicKeyData then some true
        else checkPKRAux parseAK publicKeyData fuel rest

/-- `checkPublicKeyRegistration`: scans entries parsed in sequence from the
authorized-keys bytes, comparing each entry's marshaled form with the
candidate's; `some true` on first match, `some false` when the bytes are
exhausted, `none` (an error) when an entry fails to parse. -/
def checkPublicKeyRegistration (env : Env) (authKeys : Bytes) (publicKey : PublicKey) :
    Option Bool :=
  checkPKRAux env.parseAuthorizedKey publicKey.marshal authKeys.length authKeys

/-- Modelled from the spec (§3 signed-for-auth canonical form, §4.3
`signed_data_for_auth`): length-prefixed session ID, byte 50, user, service
and `"publickey"` strings, byte 1, algorithm and public-key-blob strings.
The implementation (`buildDataSignedForAuth`) lives outside `src/`. -/
def buildDataSignedForAuth (sessionID user service algo pubKey : Bytes) : Bytes :=
  marshalString sessionID ++ [msgUserAuthRequest]
    ++ marshalString user ++ marshalString service ++ marshalString methodPublickey
    ++ [1] ++ marshalString algo ++ marshalString pubKey

/-- `VerifySignature`: rejects unacceptable signature formats with an error
(`none`), otherwise verifies the signature over the signed-for-auth data
built from the **downstream** transport's session ID. -/
def VerifySignature (env : Env) (conn : ProxyConn) (msg : UserAuthRequestMsg)
    (publicKey : PublicKey) (sig : Signature) : Option Bool :=
  if env.isAcceptableAlgo sig.format then
    some (publicKey.verify
      (buildDataSignedForAuth conn.downstreamSessionID msg.User msg.Service
        publicKey.typ publicKey.marshal) sig)
  else none

/-- `signAgain`: signs the signed-for-auth data built from the **upstream**
transport's session ID with the proxy's signer, wraps the serialized
signature in a string, marshals the resulting `publickeyAuthMsg` and
unmarshals it back into a `userAuthRequestMsg`; `none` models an error from
`Sign` or from the final `Unmarshal`. -/
def signAgain (conn : ProxyConn) (user : Bytes) (signer : Signer) : Option UserAuthRequestMsg :=
  let sessionID := conn.upstreamSessionID
  let upStreamPublicKey := signer.publicKey
  let upStreamPublicKeyData := upStreamPublicKey.marshal
  match signer.sign (buildDataSignedForAuth sessionID user serviceSSH
      upStreamPublicKey.typ upStreamPublicKeyData) with
  | none => none
  | some sign =>
    let s := marshalSignature sign
    let sig := marshalString s
    let publicKeyMsg : PublickeyAuthMsg :=
      ⟨user, serviceSSH, methodPublickey, true,
        upStreamPublicKey.typ, upStreamPublicKeyData, sig⟩
    unmarshalUserAuthRequestMsg (marshalPublickeyAuthMsg publicKeyMsg)

/-- Modelled from the spec (§4.4, §9 single-signer note): `PublicKeys`
wraps its signers in a callback returning them with no error; the source
obtains the list through that callback.  `PublicKeys` lives outside
`src/`. -/
def publicKeysCallback (signer : Signer) : List Signer := [signer]

/-- `noneAuthMsg`: the `"none"`-method user-auth request sent upstream when
publickey is given up. -/
def noneAuthMsg (user : Bytes) : UserAuthRequestMsg :=
  ⟨user, serviceSSH, methodNone, []⟩

/-- What one `handleAuthMsg` call produces: the message to bridge upstream
(`none` when nothing is to be bridged), the packets written to the
downstream transport (by `sendOKMsg` / `sendFailureMsg`), and whether the
call ends in a runtime panic instead of returning: when `signAgain` fails,
the loop has already reassigned `msg` to the nil pointer `signAgain`
returned, so the fall-through `sendFailureMsg(msg.Method)` dereferences
nil before anything is written. -/
structure HandleResult where
  ret : Option UserAuthRequestMsg
  dsWrites : List Bytes
  panicked : Bool
deriving DecidableEq

/-- The result of the `break` paths of `handleAuthMsg`'s publickey case:
`sendFailureMsg` writes a USERAUTH_FAILURE naming the attempted method
downstream and the function returns no upstream message. -/
def failureResult (method : Bytes) : HandleResult :=
  ⟨none, [marshalUserAuthFailureMsg method], false⟩

/-- `handleAuthMsg`: dispatches on the request method.  `publickey` is
parsed, gated on the authorized-key set and the downstream signature, and
re-signed; a query is answered locally with PK_OK; `password` and every
other method pass through unchanged.  A `signAgain` error does not produce
a failure reply: `msg` has been reassigned to the returned nil pointer, so
the fall-through `sendFailureMsg(msg.Method)` panics with no writes. -/
def handleAuthMsg (env : Env) (conn : ProxyConn) (msg : UserAuthRequestMsg) : HandleResult :=
  if msg.Method = methodPublickey then
    match parsePublicKeyMsg env msg with
    | none => failureResult msg.Method
    | some (.query downStreamPublicKey) =>
      ⟨none, [marshalUserAuthPubKeyOkMsg downStreamPublicKey], false⟩
    | some (.signed downStreamPublicKey sig) =>
      match fetchAuthorizedKeys env msg.User with
      | none => ⟨some (noneAuthMsg msg.User), [], false⟩
      | some authKeys =>
        match checkPublicKeyRegistration env authKeys downStreamPublicKey with
        | some true =>
          match VerifySignature env conn msg downStreamPublicKey sig with
          | some true =>
            match fetchPrivateKey env conn.user with
            | none => failureResult msg.Method
            | some privateBytes =>
              match env.parsePrivateKey privateBytes with
              | none => failureResult msg.Method
              | some signer =>
                match publicKeysCallback signer with
                | [] => failureResult msg.Method
                | s :: _ =>
                  match signAgain conn msg.User s with
                  | none => ⟨none, [], true⟩
                  | some m => ⟨some m, [], false⟩
          | _ => failureResult msg.Method
        | _ => ⟨some (noneAuthMsg msg.User), [], false⟩
  else ⟨some msg, [], false⟩

/-- Result of the relay loop inside `checkBridgeAuthWithNoBanner`:
`res b` is the function's `(b, nil)` return, `ioErr` a failed upstream
read, `oob` the out-of-bounds `packet[0]` on an empty packet. -/
inductive LoopRes where
  | res (isSuccess : Bool)
  | ioErr
  | oob
deriving DecidableEq

/-- The relay loop of `checkBridgeAuthWithNoBanner` over the packets the
upstream transport delivers: each packet is forwarded downstream; SUCCESS
returns true, BANNER continues, FAILURE and anything else return false.
Yields (result, downstream writes, remaining upstream packets). -/
def bridgeRelay : List Bytes → LoopRes × List Bytes × List Bytes
  | [] => (.ioErr, [], [])
  | p :: rest =>
    match p.head? with
    | none => (.oob, [], rest)
    | some msgType =>
      if msgType = msgUserAuthSuccess then (.res true, [p], rest)
      else if msgType = msgUserAuthBanner then
        let r := bridgeRelay rest
        (r.1, p :: r.2.1, r.2.2)
      else (.res false, [p], rest)

/-- `checkBridgeAuthWithNoBanner`: writes the given packet upstream, then
relays upstream packets downstream until a non-banner reply.  Yields
(result, upstream writes, downstream writes, remaining upstream packets). -/
def checkBridgeAuthWithNoBanner (packet : Bytes) (up : List Bytes) :
    LoopRes × List Bytes × List Bytes × List Bytes :=
  let r := bridgeRelay up
  (r.1, [packet], r.2.1, r.2.2)

/-- Result of the next-request phase of `AuthenticateProxyConn`: the next
decoded request, a read error, the protocol-violation error for a
non-USERAUTH_REQUEST packet, a failed `Unmarshal`, or the out-of-bounds
`packet[0]` on an empty packet.  Each carries the unread remainder. -/
inductive NextReqRes where
  | ok (m : UserAuthRequestMsg) (rest : List Bytes)
  | ioErr (rest : List Bytes)
  | protoErr (rest : List Bytes)
  | unmarshalErr (rest : List Bytes)
  | oob (rest : List Bytes)

/-- The next-request phase of `AuthenticateProxyConn`: read one downstream
packet; its first byte must be USERAUTH_REQUEST (50), anything else is the
protocol-violation error; decode it into the next `userAuthRequestMsg`. -/
def nextRequestPhase (down : List Bytes) : NextReqRes :=
  match down with
  | [] => .ioErr []
  | p :: rest =>
    match p.head? with
    | none => .oob rest
    | some b =>
      if b = msgUserAuthRequest then
        match unmarshalUserAuthRequestMsg p with
        | none => .unmarshalErr rest
        | some m => .ok m rest
      else .protoErr rest

/-- Outcome of one iteration of `AuthenticateProxyConn`'s loop;
`crashed` is the nil-pointer panic from a failed re-sign, `oob` the
out-of-bounds first-byte access. -/
inductive StepOutcome where
  | success
  | fatal
  | oob
  | crashed
  | next (m : UserAuthRequestMsg)

/-- One loop iteration's observable effects: outcome, upstream writes,
downstream writes, and the unread remainders of both packet streams. -/
structure StepRes where
  outcome : StepOutcome
  usW : List Bytes
  dsW : List Bytes
  downRest : List Bytes
  upRest : List Bytes

/-- Shared tail of a loop iteration: run the next-request phase and package
the iteration's traces. -/
def finishStep (usW dsW : List Bytes) (down upRest : List Bytes) : StepRes :=
  match nextRequestPhase down with
  | .ok m rest => ⟨.next m, usW, dsW, rest, upRest⟩
  | .ioErr rest => ⟨.fatal, usW, dsW, rest, upRest⟩
  | .protoErr rest => ⟨.fatal, usW, dsW, rest, upRest⟩
  | .unmarshalErr rest => ⟨.fatal, usW, dsW, rest, upRest⟩
  | .oob rest => ⟨.oob, usW, dsW, rest, upRest⟩

/-- One iteration of `AuthenticateProxyConn`'s loop: translate the current
request with `handleAuthMsg` (a returned error is only logged; a panic in
it aborts the whole state machine); when a message came back, bridge
`Marshal` of it upstream; on upstream success stop, otherwise (and when no
message came back) run the next-request phase. -/
def authStep (env : Env) (conn : ProxyConn) (msg : UserAuthRequestMsg)
    (down up : List Bytes) : StepRes :=
  let hr := handleAuthMsg env conn msg
  match hr.panicked, hr.ret with
  | true, _ => ⟨.crashed, [], hr.dsWrites, down, up⟩
  | false, some m =>
    let pkt := marshalUserAuthRequestMsg m
    let br := bridgeRelay up
    match br.1 with
    | .res true => ⟨.success, [pkt], hr.dsWrites ++ br.2.1, down, br.2.2⟩
    | .ioErr => ⟨.fatal, [pkt], hr.dsWrites ++ br.2.1, down, br.2.2⟩
    | .oob => ⟨.oob, [pkt], hr.dsWrites ++ br.2.1, down, br.2.2⟩
    | .res false => finishStep [pkt] (hr.dsWrites ++ br.2.1) down br.2.2
  | false, none => finishStep [] hr.dsWrites down up

/-- Terminal result of the authentication state machine; `crashed` and
`oob` are the two runtime panics, which abort the goroutine rather than
return an error. -/
inductive AuthResult where
  | success
  | fatalError
  | oob
  | crashed
  | outOfFuel
deriving DecidableEq

/-- The fuelled loop of `AuthenticateProxyConn`, accumulating the upstream
and downstream write traces. -/
def authLoop (env : Env) (conn : ProxyConn) :
    Nat → UserAuthRequestMsg → List Bytes → List Bytes →
    AuthResult × List Bytes × List Bytes
  | 0, _, _, _ => (.outOfFuel, [], [])
  | fuel + 1, msg, down, up =>
    let s := authStep env conn msg down up
    match s.outcome with
    | .success => (.success, s.usW, s.dsW)
    | .fatal => (.fatalError, s.usW, s.dsW)
    | .oob => (.oob, s.usW, s.dsW)
    | .crashed => (.crashed, s.usW, s.dsW)
    | .next m =>
      let r := authLoop env conn fuel m s.downRest s.upRest
      (r.1, s.usW ++ r.2.1, s.dsW ++ r.2.2)

/-- `Marshal` of the `serviceRequestMsg("ssh-userauth")` that `sendAuthReq`
writes upstream.  Modelled from the spec (§6 wire protocol, type 5). -/
def marshalServiceRequestMsg : Bytes := 5 :: marshalString serviceUserAuth

/-- Whether a packet unmarshals as a `serviceAcceptMsg` (type byte 6, one
SSH string, nothing trailing).  Modelled from the spec (§6 wire protocol). -/
def unmarshalServiceAcceptOk (p : Bytes) : Bool :=
  match p with
  | 6 :: rest =>
    match parseString rest with
    | some (_, []) => true
    | _ => false
  | _ => false

/-- `AuthenticateProxyConn`: send the service request upstream and read the
accept (`sendAuthReq`), then run the translate-or-tunnel loop. -/
def AuthenticateProxyConn (env : Env) (conn : ProxyConn) (fuel : Nat)
    (initUserAuthMsg : UserAuthRequestMsg) (down up : List Bytes) :
    AuthResult × List Bytes × List Bytes :=
  match up with
  | [] => (.fatalError, [marshalServiceRequestMsg], [])
  | p :: upRest =>
    if unmarshalServiceAcceptOk p then
      let r := authLoop env conn fuel initUserAuthMsg down upRest
      (r.1, marshalServiceRequestMsg :: r.2.1, r.2.2)
    else (.fatalError, [marshalServiceRequestMsg], [])

/-! Concrete fixtures used by the closed witness theorems. -/

/-- A concrete public key: algorithm name `[100]`, blob `[75]`, a verifier
that accepts everything. -/
def pkA : PublicKey := ⟨[100], [75], fun _ _ => true⟩

/-- A concrete signature. -/
def sigA : Signature := ⟨[114], [42]⟩

/-- A signer over `pkA` that always produces `sigA`. -/
def signerA : Signer := ⟨pkA, fun _ => some sigA⟩

/-- A signer over `pkA` whose signing always fails. -/
def signerBad : Signer := ⟨pkA, fun _ => none⟩

/-- A concrete proxy connection: user `[97]`, distinct session IDs. -/
def connA : ProxyConn := ⟨[97], [11], [22]⟩

/-- A concrete oracle environment: every algorithm acceptable, parsers that
succeed on the shapes the fixtures use, an authorized-keys hook returning
`[9]` (which parses to a key with blob `[75]`), and the master key in
use. -/
def envA : Env where
  isAcceptableAlgo := fun _ => true
  parsePublicKey := fun b => some ⟨[100], b, fun _ _ => true⟩
  parseSignature := fun _ => some (sigA, [])
  parseAuthorizedKey := fun b =>
    match b with
    | [] => none
    | _ :: t => some (⟨[100], [75], fun _ _ => true⟩, t)
  parsePrivateKey := fun _ => some signerA
  fetchAuthorizedKeysHook := some fun _ => some [9]
  fetchPrivateKeyHook := none
  useMasterKey := true
  masterKeyFile := some [1, 2]
  fs := fun _ => none

/-- A signed downstream publickey request for user `[97]`: has-sig byte 1,
algorithm `[100]`, blob `[75]`, trailing signature bytes `[7]`. -/
def msgSignedA : UserAuthRequestMsg :=
  ⟨[97], serviceSSH, methodPublickey, 1 :: (marshalString [100] ++ marshalString [75] ++ [7])⟩

/-- A publickey query (has-sig byte 0) for the same key. -/
def msgQueryA : UserAuthRequestMsg :=
  ⟨[97], serviceSSH, methodPublickey, 0 :: (marshalString [100] ++ marshalString [75])⟩

/-- A password request. -/
def msgPwA : UserAuthRequestMsg := ⟨[97], serviceSSH, methodPassword, [3, 4]⟩

/-- `envA` with a private-key parser yielding the failing signer. -/
def envB : Env := { envA with parsePrivateKey := fun _ => some signerBad }

/-- `envA` with an authorized-keys hook that fails. -/
def envC : Env := { envA with fetchAuthorizedKeysHook := some fun _ => none }

/-- The re-signed request `signAgain connA [97] signerA` produces. -/
def mA : UserAuthRequestMsg :=
  ⟨[97], serviceSSH, methodPublickey,
    1 :: (marshalString [100] ++ marshalString [75]
      ++ marshalString (marshalSignature sigA))⟩

/-- A filesystem whose authorized-keys and private-key files for user
`[97]` both have mode `0o644` (420) — group/other read bits set, so
`mode &&& 0o077 ≠ 0`. -/
def fsPerm : FS := fun p =>
  if p = userSpecFile [97] userAuthorizedKeysFile then some ⟨420, [75]⟩
  else if p = userSpecFile [97] userPrivateKeyFile then some ⟨420, [1, 2]⟩
  else none

/-- `envA` with no hooks and no master key, so both fetches go through the
home-directory files of `fsPerm`. -/
def envP : Env :=
  { envA with fetchAuthorizedKeysHook := none, useMasterKey := false, fs := fsPerm }

/-! Helper lemmas about the loop-iteration plumbing. -/

lemma finishStep_usW (usW dsW down upRest) : (finishStep usW dsW down upRest).usW = usW := by
  unfold finishStep
  cases nextRequestPhase down <;> rfl

lemma finishStep_dsW (usW dsW down upRest) : (finishStep usW dsW down upRest).dsW = dsW := by
  unfold finishStep
  cases nextRequestPhase down <;> rfl

lemma finishStep_outcome_ok (usW dsW down upRest m rest)
    (h : nextRequestPhase down = .ok m rest) :
    (finishStep usW dsW down upRest).outcome = .next m := by
  unfold finishStep
  rw [h]

lemma finishStep_outcome_protoErr (usW dsW down upRest rest)
    (h : nextRequestPhase down = .protoErr rest) :
    finishStep usW dsW down upRest = ⟨.fatal, usW, dsW, rest, upRest⟩ := by
  unfold finishStep
  rw [h]

lemma handleAuthMsg_not_panicked_of_ret_some (env : Env) (conn : ProxyConn)
    (msg m : UserAuthRequestMsg)
    (h : (handleAuthMsg env conn msg).ret = some m) :
    (handleAuthMsg env conn msg).panicked = false := by
  by_cases hm : msg.Method = methodPublickey
  · rcases hp : parsePublicKeyMsg env msg with _ | pr
    · simp [handleAuthMsg, hm, hp, failureResult]
    · cases pr with
      | query pk => simp [handleAuthMsg, hm, hp]
      | signed pk sig =>
        rcases hak : fetchAuthorizedKeys env msg.User with _ | keys
        · simp [handleAuthMsg, hm, hp, hak]
        · rcases hreg : checkPublicKeyRegistration env keys pk with _ | b
          · simp [handleAuthMsg, hm, hp, hak, hreg]
          · cases b with
            | false => simp [handleAuthMsg, hm, hp, hak, hreg]
            | true =>
              rcases hver : VerifySignature env conn msg pk sig with _ | vb
              · simp [handleAuthMsg, hm, hp, hak, hreg, hver, failureResult]
              · cases vb with
                | false => simp [handleAuthMsg, hm, hp, hak, hreg, hver, failureResult]
                | true =>
                  rcases hpriv : fetchPrivateKey env conn.user with _ | priv
                  · simp [handleAuthMsg, hm, hp, hak, hreg, hver, hpriv, failureResult]
                  · rcases hps : env.parsePrivateKey priv with _ | signer
                    · simp [handleAuthMsg, hm, hp, hak, hreg, hver, hpriv, hps,
                        failureResult]
                    · rcases hsa : signAgain conn msg.User signer with _ | m2
                      · have hh : handleAuthMsg env conn msg = ⟨none, [], true⟩ := by
                          simp [handleAuthMsg, hm, hp, hak, hreg, hver, hpriv, hps,
                            publicKeysCallback, hsa]
                        rw [hh] at h
                        simp at h
                      · simp [handleAuthMsg, hm, hp, hak, hreg, hver, hpriv, hps,
                          publicKeysCallback, hsa]
  · simp [handleAuthMsg, hm]

lemma authStep_of_panicked (env conn msg down up)
    (hp : (handleAuthMsg env conn msg).panicked = true) :
    authStep env conn msg down up =
      ⟨.crashed, [], (handleAuthMsg env conn msg).dsWrites, down, up⟩ := by
  simp only [authStep]
  rw [hp]

lemma authStep_of_ret_none (env conn msg down up)
    (hpf : (handleAuthMsg env conn msg).panicked = false)
    (h : (handleAuthMsg env conn msg).ret = none) :
    authStep env conn msg down up = finishStep [] (handleAuthMsg env conn msg).dsWrites down up := by
  simp only [authStep]
  rw [hpf, h]

lemma authStep_usW_of_ret_some (env conn msg down up m)
    (h : (handleAuthMsg env conn msg).ret = some m) :
    (authStep env conn msg down up).usW = [marshalUserAuthRequestMsg m] := by
  have hpf := handleAuthMsg_not_panicked_of_ret_some env conn msg m h
  simp only [authStep]
  rw [hpf, h]
  cases hbr : (bridgeRelay up).1 with
  | res b => cases b <;> simp [hbr, finishStep_usW]
  | ioErr => simp [hbr]
  | oob => simp [hbr]

lemma authStep_of_ret_some_resFalse (env conn msg down up m)
    (h : (handleAuthMsg env conn msg).ret = some m)
    (hbr : (bridgeRelay up).1 = .res false) :
    authStep env conn msg down up =
      finishStep [marshalUserAuthRequestMsg m]
        ((handleAuthMsg env conn msg).dsWrites ++ (bridgeRelay up).2.1) down (bridgeRelay up).2.2 := by
  have hpf := handleAuthMsg_not_panicked_of_ret_some env conn msg m h
  simp only [authStep]
  rw [hpf, h]
  simp [hbr]

/-- Claim C2: the signature verified from downstream covers signed-for-auth
data built from the downstream transport's session ID, the signature
produced in `signAgain` covers signed-for-auth data built from the upstream
transport's session ID, and each operation is independent of the other
transport's session ID (the two are never interchanged). -/
theorem c2_session_id_binding :
    (∀ env conn msg pk sig, env.isAcceptableAlgo sig.format = true →
       VerifySignature env conn msg pk sig =
         some (pk.verify
           (buildDataSignedForAuth conn.downstreamSessionID msg.User msg.Service
             pk.typ pk.marshal) sig))
    ∧ (∀ conn user signer m, signAgain conn user signer = some m →
        ∃ s, signer.sign
          (buildDataSignedForAuth conn.upstreamSessionID user serviceSSH
            signer.publicKey.typ signer.publicKey.marshal) = some s)
    ∧ (∀ env ca cb msg pk sig, ca.downstreamSessionID = cb.downstreamSessionID →
        VerifySignature env ca msg pk sig = VerifySignature env cb msg pk sig)
    ∧ (∀ ca cb user signer, ca.upstreamSessionID = cb.upstreamSessionID →
        signAgain ca user signer = signAgain cb user signer) := by
  refine ⟨fun env conn msg pk sig h => ?_, fun conn user signer m h => ?_,
    fun env ca cb msg pk sig h => ?_, fun ca cb user signer h => ?_⟩
  · simp [VerifySignature, h]
  · simp only [signAgain] at h
    rcases hs : signer.sign
        (buildDataSignedForAuth conn.upstreamSessionID user serviceSSH
          signer.publicKey.typ signer.publicKey.marshal) with _ | s
    · rw [hs] at h
      simp at h
    · exact ⟨s, rfl⟩
  · simp [VerifySignature, h]
  · simp [signAgain, h]

/-- Witness for C2 at the concrete fixtures. -/
theorem c2_witness :
    envA.isAcceptableAlgo sigA.format = true
    ∧ VerifySignature envA connA msgSignedA pkA sigA =
        some (pkA.verify
          (buildDataSignedForAuth connA.downstreamSessionID msgSignedA.User
            msgSignedA.Service pkA.typ pkA.marshal) sigA)
    ∧ signAgain connA [97] signerA = some mA
    ∧ (∃ s, signerA.sign
        (buildDataSignedForAuth connA.upstreamSessionID [97] serviceSSH
          signerA.publicKey.typ signerA.publicKey.marshal) = some s) :=
  ⟨rfl, c2_session_id_binding.1 envA connA msgSignedA pkA sigA rfl, rfl,
    c2_session_id_binding.2.1 connA [97] signerA mA rfl⟩

/-- Claim C4: a well-formed downstream publickey query (has-sig byte 0)
produces exactly one downstream packet — the USERAUTH_PK_OK carrying the
key's algorithm name and blob — and zero upstream packets before the next
downstream request is awaited. -/
theorem c4_query_short_circuit (env : Env) (conn : ProxyConn) (msg : UserAuthRequestMsg)
    (pk : PublicKey) (hq : parsePublicKeyMsg env msg = some (.query pk)) :
    handleAuthMsg env conn msg = ⟨none, [marshalUserAuthPubKeyOkMsg pk], false⟩
    ∧ ∀ down up : List Bytes,
        (authStep env conn msg down up).usW = []
        ∧ (authStep env conn msg down up).dsW = [marshalUserAuthPubKeyOkMsg pk] := by
  have hm : msg.Method = methodPublickey := by
    by_contra h
    simp [parsePublicKeyMsg, h] at hq
  have h1 : handleAuthMsg env conn msg = ⟨none, [marshalUserAuthPubKeyOkMsg pk], false⟩ := by
    simp [handleAuthMsg, hm, hq]
  have hpf : (handleAuthMsg env conn msg).panicked = false := by rw [h1]
  have hret : (handleAuthMsg env conn msg).ret = none := by rw [h1]
  refine ⟨h1, fun down up => ⟨?_, ?_⟩⟩
  · rw [authStep_of_ret_none env conn msg down up hpf hret, finishStep_usW]
  · rw [authStep_of_ret_none env conn msg down up hpf hret, finishStep_dsW, h1]

/-- Witness for C4 at the concrete fixtures. -/
theorem c4_witness :
    parsePublicKeyMsg envA msgQueryA = some (.query pkA)
    ∧ handleAuthMsg envA connA msgQueryA = ⟨none, [marshalUserAuthPubKeyOkMsg pkA], false⟩
    ∧ (authStep envA connA msgQueryA [] []).usW = []
    ∧ (authStep envA connA msgQueryA [] []).dsW = [marshalUserAuthPubKeyOkMsg pkA] :=
  ⟨rfl, (c4_query_short_circuit envA connA msgQueryA pkA rfl).1,
    ((c4_query_short_circuit envA connA msgQueryA pkA rfl).2 [] []).1,
    ((c4_query_short_circuit envA connA msgQueryA pkA rfl).2 [] []).2⟩

/-- Claim C5 (code behaviour): when the authorized-key check and the
downstream signature verification succeeded but re-signing fails
(`signAgain` errors in `Sign` or the final `Unmarshal`), the source has
already overwritten `msg` with `signAgain`'s nil return, so the
fall-through `sendFailureMsg(msg.Method)` dereferences a nil pointer: the
attempt ends in a runtime panic — no USERAUTH_FAILURE reaches the
downstream, nothing is written upstream, and the next downstream request
is never awaited. -/
theorem c5_resign_failure_crashes (env : Env) (conn : ProxyConn) (msg : UserAuthRequestMsg)
    (pk : PublicKey) (sig : Signature) (keys priv : Bytes) (signer : Signer)
    (h1 : parsePublicKeyMsg env msg = some (.signed pk sig))
    (h2 : fetchAuthorizedKeys env msg.User = some keys)
    (h3 : checkPublicKeyRegistration env keys pk = some true)
    (h4 : VerifySignature env conn msg pk sig = some true)
    (h5 : fetchPrivateKey env conn.user = some priv)
    (h6 : env.parsePrivateKey priv = some signer)
    (h7 : signAgain conn msg.User signer = none) :
    handleAuthMsg env conn msg = ⟨none, [], true⟩
    ∧ ∀ down up : List Bytes,
        authStep env conn msg down up = ⟨.crashed, [], [], down, up⟩ := by
  have hm : msg.Method = methodPublickey := by
    by_contra h
    simp [parsePublicKeyMsg, h] at h1
  have hh : handleAuthMsg env conn msg = ⟨none, [], true⟩ := by
    simp [handleAuthMsg, hm, h1, h2, h3, h4, h5, h6, publicKeysCallback, h7]
  refine ⟨hh, fun down up => ?_⟩
  rw [authStep_of_panicked env conn msg down up (by rw [hh]), hh]

/-- Witness for C5: the signer whose signing fails makes the concrete
attempt crash with no downstream failure reply and nothing upstream. -/
theorem c5_crash_witness :
    signAgain connA msgSignedA.User signerBad = none
    ∧ handleAuthMsg envB connA msgSignedA = ⟨none, [], true⟩
    ∧ authStep envB connA msgSignedA [marshalUserAuthRequestMsg msgPwA] [] =
        ⟨.crashed, [], [], [marshalUserAuthRequestMsg msgPwA], []⟩ :=
  ⟨rfl,
    (c5_resign_failure_crashes envB connA msgSignedA pkA sigA [9] [1, 2] signerBad
      rfl rfl rfl rfl rfl rfl rfl).1,
    (c5_resign_failure_crashes envB connA msgSignedA pkA sigA [9] [1, 2] signerBad
      rfl rfl rfl rfl rfl rfl rfl).2 [marshalUserAuthRequestMsg msgPwA] []⟩

/-- Claim C6: a request whose method is not publickey is returned unchanged
by `handleAuthMsg` (with nothing written downstream), and the bridge step
writes exactly `Marshal` of that request upstream. -/
theorem c6_passthrough_fidelity (env : Env) (conn : ProxyConn) (msg : UserAuthRequestMsg)
    (h : msg.Method ≠ methodPublickey) :
    handleAuthMsg env conn msg = ⟨some msg, [], false⟩
    ∧ ∀ down up : List Bytes,
        (authStep env conn msg down up).usW = [marshalUserAuthRequestMsg msg] := by
  have h1 : handleAuthMsg env conn msg = ⟨some msg, [], false⟩ := by
    simp [handleAuthMsg, h]
  exact ⟨h1, fun down up =>
    authStep_usW_of_ret_some env conn msg down up msg (by rw [h1])⟩

/-- Witness for C6 at the concrete password request. -/
theorem c6_witness :
    msgPwA.Method ≠ methodPublickey
    ∧ handleAuthMsg envA connA msgPwA = ⟨some msgPwA, [], false⟩
    ∧ (authStep envA connA msgPwA [] []).usW = [marshalUserAuthRequestMsg msgPwA] :=
  ⟨by decide, (c6_passthrough_fidelity envA connA msgPwA (by decide)).1,
    (c6_passthrough_fidelity envA connA msgPwA (by decide)).2 [] []⟩

/-- Claim C8: for a signed publickey request, an unreadable authorized-keys
set, an unauthorized candidate key, or a matcher error each make
`handleAuthMsg` return the `"none"`-method request for that user — bridged
upstream in place of the publickey request — with nothing written
downstream at that point. -/
theorem c8_unauthorized_sends_none (env : Env) (conn : ProxyConn) (msg : UserAuthRequestMsg)
    (pk : PublicKey) (sig : Signature)
    (h1 : parsePublicKeyMsg env msg = some (.signed pk sig)) :
    (fetchAuthorizedKeys env msg.User = none →
       handleAuthMsg env conn msg = ⟨some (noneAuthMsg msg.User), [], false⟩
       ∧ ∀ down up : List Bytes,
           (authStep env conn msg down up).usW
             = [marshalUserAuthRequestMsg (noneAuthMsg msg.User)])
    ∧ ∀ keys, fetchAuthorizedKeys env msg.User = some keys →
        checkPublicKeyRegistration env keys pk ≠ some true →
        handleAuthMsg env conn msg = ⟨some (noneAuthMsg msg.User), [], false⟩
        ∧ ∀ down up : List Bytes,
            (authStep env conn msg down up).usW
              = [marshalUserAuthRequestMsg (noneAuthMsg msg.User)] := by
  have hm : msg.Method = methodPublickey := by
    by_contra h
    simp [parsePublicKeyMsg, h] at h1
  refine ⟨fun h2 => ?_, fun keys h2 h3 => ?_⟩
  · have hh : handleAuthMsg env conn msg = ⟨some (noneAuthMsg msg.User), [], false⟩ := by
      simp [handleAuthMsg, hm, h1, h2]
    exact ⟨hh, fun down up =>
      authStep_usW_of_ret_some env conn msg down up _ (by rw [hh])⟩
  · have hh : handleAuthMsg env conn msg = ⟨some (noneAuthMsg msg.User), [], false⟩ := by
      rcases hcp : checkPublicKeyRegistration env keys pk with _ | b
      · simp [handleAuthMsg, hm, h1, h2, hcp]
      · cases b
        · simp [handleAuthMsg, hm, h1, h2, hcp]
        · exact absurd hcp h3
    exact ⟨hh, fun down up =>
      authStep_usW_of_ret_some env conn msg down up _ (by rw [hh])⟩

/-- Witness for C8: an authorized-keys hook that fails. -/
theorem c8_witness :
    parsePublicKeyMsg envC msgSignedA = some (.signed pkA sigA)
    ∧ fetchAuthorizedKeys envC msgSignedA.User = none
    ∧ handleAuthMsg envC connA msgSignedA = ⟨some (noneAuthMsg msgSignedA.User), [], false⟩
    ∧ (authStep envC connA msgSignedA [] []).usW
        = [marshalUserAuthRequestMsg (noneAuthMsg msgSignedA.User)] :=
  ⟨rfl, rfl,
    ((c8_unauthorized_sends_none envC connA msgSignedA pkA sigA rfl).1 rfl).1,
    ((c8_unauthorized_sends_none envC connA msgSignedA pkA sigA rfl).1 rfl).2 [] []⟩

/-- Claim C1: whenever the publickey branch of `handleAuthMsg` hands a
message to the bridge step, that message is either the `"none"` request
(giving up publickey) or the product of a run in which both the
authorized-key check and the downstream signature verification returned
true; hence no upstream publickey request is emitted without both gates
passing. -/
theorem c1_authorization_gating (env : Env) (conn : ProxyConn) (msg : UserAuthRequestMsg)
    (m : UserAuthRequestMsg)
    (hm : msg.Method = methodPublickey)
    (hr : (handleAuthMsg env conn msg).ret = some m) :
    m = noneAuthMsg msg.User
    ∨ ∃ pk sig keys, parsePublicKeyMsg env msg = some (.signed pk sig)
        ∧ fetchAuthorizedKeys env msg.User = some keys
        ∧ checkPublicKeyRegistration env keys pk = some true
        ∧ VerifySignature env conn msg pk sig = some true := by
  rcases hp : parsePublicKeyMsg env msg with _ | pr
  · have hh : handleAuthMsg env conn msg = failureResult msg.Method := by
      simp [handleAuthMsg, hm, hp]
    rw [hh] at hr
    simp [failureResult] at hr
  · cases pr with
    | query pk =>
      have hh : handleAuthMsg env conn msg = ⟨none, [marshalUserAuthPubKeyOkMsg pk], false⟩ := by
        simp [handleAuthMsg, hm, hp]
      rw [hh] at hr
      simp at hr
    | signed pk sig =>
      rcases hak : fetchAuthorizedKeys env msg.User with _ | keys
      · have hh : handleAuthMsg env conn msg = ⟨some (noneAuthMsg msg.User), [], false⟩ := by
          simp [handleAuthMsg, hm, hp, hak]
        rw [hh] at hr
        exact Or.inl (Option.some.inj hr).symm
      · rcases hreg : checkPublicKeyRegistration env keys pk with _ | b
        · have hh : handleAuthMsg env conn msg = ⟨some (noneAuthMsg msg.User), [], false⟩ := by
            simp [handleAuthMsg, hm, hp, hak, hreg]
          rw [hh] at hr
          exact Or.inl (Option.some.inj hr).symm
        · cases b with
          | false =>
            have hh : handleAuthMsg env conn msg = ⟨some (noneAuthMsg msg.User), [], false⟩ := by
              simp [handleAuthMsg, hm, hp, hak, hreg]
            rw [hh] at hr
            exact Or.inl (Option.some.inj hr).symm
          | true =>
            rcases hver : VerifySignature env conn msg pk sig with _ | vb
            · have hh : handleAuthMsg env conn msg = failureResult msg.Method := by
                simp [handleAuthMsg, hm, hp, hak, hreg, hver]
              rw [hh] at hr
              simp [failureResult] at hr
            · cases vb with
              | false =>
                have hh : handleAuthMsg env conn msg = failureResult msg.Method := by
                  simp [handleAuthMsg, hm, hp, hak, hreg, hver]
                rw [hh] at hr
                simp [failureResult] at hr
              | true =>
                exact Or.inr ⟨pk, sig, keys, rfl, rfl, hreg, hver⟩

/-- Witness for C1: the fully successful concrete run. -/
theorem c1_witness :
    msgSignedA.Method = methodPublickey
    ∧ (handleAuthMsg envA connA msgSignedA).ret = some mA
    ∧ (mA = noneAuthMsg msgSignedA.User
       ∨ ∃ pk sig keys, parsePublicKeyMsg envA msgSignedA = some (.signed pk sig)
           ∧ fetchAuthorizedKeys envA msgSignedA.User = some keys
           ∧ checkPublicKeyRegistration envA keys pk = some true
           ∧ VerifySignature envA connA msgSignedA pk sig = some true) :=
  ⟨rfl, rfl, c1_authorization_gating envA connA msgSignedA mA rfl rfl⟩

/-- Fuel does not matter for `checkPKRAux` once it covers the input length,
provided the authorized-key parser always consumes input. -/
lemma checkPKRAux_fuel_eq (parseAK : Bytes → Option (PublicKey × Bytes)) (pkData : Bytes)
    (hcons : ∀ b k r, parseAK b = some (k, r) → r.length < b.length) :
    ∀ n (b : Bytes), b.length ≤ n →
      checkPKRAux parseAK pkData n b = checkPKRAux parseAK pkData b.length b := by
  intro n
  induction n using Nat.strong_induction_on with
  | _ n ih =>
    intro b hb
    cases b with
    | nil => cases n <;> rfl
    | cons a t =>
      cases n with
      | zero => simp at hb
      | succ n =>
        have ht : t.length ≤ n := by
          simpa using hb
        simp only [checkPKRAux, List.isEmpty_cons]
        cases hp : parseAK (a :: t) with
        | none => rfl
        | some kr =>
          obtain ⟨k, r⟩ := kr
          have hr : r.length < t.length + 1 := by
            simpa using hcons _ _ _ hp
          by_cases hmk : k.marshal = pkData
          · simp [hmk]
          · simp only [hmk, if_neg, ite_false]
            have e1 : checkPKRAux parseAK pkData n r = checkPKRAux parseAK pkData r.length r :=
              ih n (Nat.lt_succ_self n) r (by omega)
            have e2 : checkPKRAux parseAK pkData t.length r =
                checkPKRAux parseAK pkData r.length r :=
              ih t.length (by omega) r (by omega)
            rw [e1, e2]

/-- Claim C7: `checkPublicKeyRegistration` scans the entries parsed in
sequence — empty input yields false; a first entry whose marshaled form
equals the candidate's yields true immediately; a non-matching first entry
reduces the scan to the remaining bytes; and a parse error aborts the scan
with an error before later entries are considered.  The hypothesis states
the transport-library guarantee that parsing an authorized-key entry
consumes input. -/
theorem c7_registration_scan (env : Env)
    (hcons : ∀ b k r, env.parseAuthorizedKey b = some (k, r) → r.length < b.length) :
    (∀ pk, checkPublicKeyRegistration env [] pk = some false)
    ∧ (∀ (authKeys : Bytes) pk k rest, env.parseAuthorizedKey authKeys = some (k, rest) →
        k.marshal = pk.marshal → checkPublicKeyRegistration env authKeys pk = some true)
    ∧ (∀ (authKeys : Bytes) pk k rest, env.parseAuthorizedKey authKeys = some (k, rest) →
        k.marshal ≠ pk.marshal →
        checkPublicKeyRegistration env authKeys pk = checkPublicKeyRegistration env rest pk)
    ∧ (∀ (authKeys : Bytes) pk, authKeys ≠ [] → env.parseAuthorizedKey authKeys = none →
        checkPublicKeyRegistration env authKeys pk = none) := by
  refine ⟨fun pk => rfl, fun authKeys pk k rest hp hmk => ?_, fun authKeys pk k rest hp hmk => ?_,
    fun authKeys pk hne hp => ?_⟩
  · cases authKeys with
    | nil => exact absurd (hcons _ _ _ hp) (by simp)
    | cons a t =>
      simp [checkPublicKeyRegistration, checkPKRAux, hp, hmk]
  · cases authKeys with
    | nil => exact absurd (hcons _ _ _ hp) (by simp)
    | cons a t =>
      have hr : rest.length < t.length + 1 := by
        simpa using hcons _ _ _ hp
      have hstep : checkPublicKeyRegistration env (a :: t) pk =
          checkPKRAux env.parseAuthorizedKey pk.marshal t.length rest := by
        simp [checkPublicKeyRegistration, checkPKRAux, hp, hmk]
      rw [hstep]
      exact checkPKRAux_fuel_eq env.parseAuthorizedKey pk.marshal hcons t.length rest (by omega)
  · cases authKeys with
    | nil => exact absurd rfl hne
    | cons a t =>
      simp [checkPublicKeyRegistration, checkPKRAux, hp]

/-- Witness for C7: a consuming parser, exercised on an empty set, a
matching first entry, and a non-matching first entry. -/
theorem c7_witness :
    checkPublicKeyRegistration envA [] pkA = some false
    ∧ checkPublicKeyRegistration envA [9] pkA = some true
    ∧ checkPublicKeyRegistration envA [9, 8] ⟨[100], [76], fun _ _ => true⟩
        = checkPublicKeyRegistration envA [8] ⟨[100], [76], fun _ _ => true⟩ :=
  have hcons : ∀ (b : Bytes) k r, envA.parseAuthorizedKey b = some (k, r) → r.length < b.length :=
    fun b k r h => by
      cases b with
      | nil => simp [envA] at h
      | cons a t =>
        simp only [envA] at h
        have h2 : t = r := congrArg Prod.snd (Option.some.inj h)
        subst h2
        simp
  ⟨(c7_registration_scan envA hcons).1 pkA,
    (c7_registration_scan envA hcons).2.1 [9] pkA ⟨[100], [75], fun _ _ => true⟩ [] rfl rfl,
    (c7_registration_scan envA hcons).2.2.1 [9, 8] ⟨[100], [76], fun _ _ => true⟩
      ⟨[100], [75], fun _ _ => true⟩ [8] rfl (by decide)⟩

/-- Claim C9: in the next-request phase, a downstream packet whose first
byte is not USERAUTH_REQUEST (50) yields the protocol-violation error — it
is never decoded — and the state machine returns an error: shown both for
`AuthenticateProxyConn` when the current attempt bridged nothing upstream
(and did not panic), and for the loop when the previous bridge step ended
in failure, in which case the upstream trace holds exactly the
already-bridged packet and never the offending one. -/
theorem c9_protocol_violation (p : Bytes) (rest : List Bytes) (b : Nat)
    (h1 : p.head? = some b) (h2 : b ≠ msgUserAuthRequest) :
    nextRequestPhase (p :: rest) = .protoErr rest
    ∧ (∀ (env : Env) (conn : ProxyConn) (msg : UserAuthRequestMsg) (up : List Bytes) fuel,
        (handleAuthMsg env conn msg).panicked = false →
        (handleAuthMsg env conn msg).ret = none →
        AuthenticateProxyConn env conn (fuel + 1) msg (p :: rest)
            ((6 :: marshalString serviceUserAuth) :: up) =
          (.fatalError, [marshalServiceRequestMsg], (handleAuthMsg env conn msg).dsWrites))
    ∧ (∀ (env : Env) (conn : ProxyConn) (msg m : UserAuthRequestMsg) (up : List Bytes) fuel,
        (handleAuthMsg env conn msg).ret = some m →
        (bridgeRelay up).1 = .res false →
        authLoop env conn (fuel + 1) msg (p :: rest) up =
          (.fatalError, [marshalUserAuthRequestMsg m],
            (handleAuthMsg env conn msg).dsWrites ++ (bridgeRelay up).2.1)) := by
  have hnp : nextRequestPhase (p :: rest) = .protoErr rest := by
    simp [nextRequestPhase, h1, h2]
  refine ⟨hnp, fun env conn msg up fuel hpf hret => ?_, fun env conn msg m up fuel hret hbr => ?_⟩
  · have hstep : authStep env conn msg (p :: rest) up =
        ⟨.fatal, [], (handleAuthMsg env conn msg).dsWrites, rest, up⟩ := by
      rw [authStep_of_ret_none _ _ _ _ _ hpf hret, finishStep_outcome_protoErr _ _ _ _ _ hnp]
    have hloop : authLoop env conn (fuel + 1) msg (p :: rest) up =
        (.fatalError, [], (handleAuthMsg env conn msg).dsWrites) := by
      simp only [authLoop, hstep]
    have hacc : unmarshalServiceAcceptOk (6 :: marshalString serviceUserAuth) = true := rfl
    simp [AuthenticateProxyConn, hacc, hloop]
  · have hstep : authStep env conn msg (p :: rest) up =
        ⟨.fatal, [marshalUserAuthRequestMsg m],
          (handleAuthMsg env conn msg).dsWrites ++ (bridgeRelay up).2.1, rest,
          (bridgeRelay up).2.2⟩ := by
      rw [authStep_of_ret_some_resFalse _ _ _ _ _ _ hret hbr,
        finishStep_outcome_protoErr _ _ _ _ _ hnp]
    simp only [authLoop, hstep]

/-- Witness for C9: a CHANNEL_OPEN packet (type 90) after a query attempt. -/
theorem c9_witness :
    ([90] : Bytes).head? = some 90
    ∧ (90 : Nat) ≠ msgUserAuthRequest
    ∧ nextRequestPhase [[90]] = .protoErr []
    ∧ (handleAuthMsg envA connA msgQueryA).panicked = false
    ∧ (handleAuthMsg envA connA msgQueryA).ret = none
    ∧ AuthenticateProxyConn envA connA 1 msgQueryA [[90]]
        [6 :: marshalString serviceUserAuth] =
        (.fatalError, [marshalServiceRequestMsg], (handleAuthMsg envA connA msgQueryA).dsWrites) :=
  ⟨rfl, by decide, (c9_protocol_violation [90] [] 90 rfl (by decide)).1, rfl, rfl,
    (c9_protocol_violation [90] [] 90 rfl (by decide)).2.1 envA connA msgQueryA [] 0 rfl rfl⟩

/-- The relay loop of `checkBridgeAuthWithNoBanner` never hits an
out-of-bounds first-byte access when every delivered packet is
non-empty. -/
lemma bridgeRelay_no_oob :
    ∀ up : List Bytes, (∀ q ∈ up, q ≠ ([] : Bytes)) → (bridgeRelay up).1 ≠ .oob := by
  intro up
  induction up with
  | nil =>
    intro _
    simp [bridgeRelay]
  | cons p rest ih =>
    intro h
    have hp : p ≠ [] := h p (by simp)
    obtain ⟨a, t, rfl⟩ : ∃ a t, p = a :: t := by
      cases p with
      | nil => exact absurd rfl hp
      | cons a t => exact ⟨a, t, rfl⟩
    simp only [bridgeRelay, List.head?]
    by_cases h52 : a = msgUserAuthSuccess
    · simp [h52]
    · by_cases h53 : a = msgUserAuthBanner
      · simpa [h52, h53] using ih (fun q hq => h q (by simp [hq]))
      · simp [h52, h53]

/-- Claim C10: both the relay loop of `checkBridgeAuthWithNoBanner` and the
next-request phase read the first byte of each delivered packet unchecked;
they avoid the out-of-bounds access exactly under the precondition that
every delivered packet is non-empty — an empty packet makes each of them
hit it. -/
theorem c10_nonempty_packet_precondition :
    (∀ up : List Bytes, (∀ q ∈ up, q ≠ ([] : Bytes)) →
       ∀ packet, (checkBridgeAuthWithNoBanner packet up).1 ≠ LoopRes.oob)
    ∧ (∀ down : List Bytes, (∀ q ∈ down, q ≠ ([] : Bytes)) →
       ∀ r, nextRequestPhase down ≠ NextReqRes.oob r)
    ∧ (checkBridgeAuthWithNoBanner [] [[]]).1 = LoopRes.oob
    ∧ nextRequestPhase [([] : Bytes)] = NextReqRes.oob [] := by
  refine ⟨fun up h packet => ?_, fun down h r => ?_, rfl, rfl⟩
  · simpa [checkBridgeAuthWithNoBanner] using bridgeRelay_no_oob up h
  · cases down with
    | nil => simp [nextRequestPhase]
    | cons p rest =>
      have hp : p ≠ [] := h p (by simp)
      obtain ⟨a, t, rfl⟩ : ∃ a t, p = a :: t := by
        cases p with
        | nil => exact absurd rfl hp
        | cons a t => exact ⟨a, t, rfl⟩
      simp only [nextRequestPhase, List.head?]
      by_cases h50 : a = msgUserAuthRequest
      · simp only [h50, if_pos rfl]
        cases unmarshalUserAuthRequestMsg (msgUserAuthRequest :: t) <;> simp
      · simp [h50]

/-- Witness for C10 on non-empty packet streams. -/
theorem c10_witness :
    (∀ q ∈ ([[52], [51]] : List Bytes), q ≠ ([] : Bytes))
    ∧ (checkBridgeAuthWithNoBanner [] [[52], [51]]).1 ≠ LoopRes.oob
    ∧ (∀ q ∈ ([[51]] : List Bytes), q ≠ ([] : Bytes))
    ∧ nextRequestPhase [[51]] ≠ NextReqRes.oob [] :=
  ⟨by decide, c10_nonempty_packet_precondition.1 [[52], [51]] (by decide) [],
    by decide, c10_nonempty_packet_precondition.2.1 [[51]] (by decide) []⟩

/-- Claim C3 (code behaviour at the failing input): although
`checkPermission` would refuse both files (their mode has `0o077` bits
set), the authentication path never consults it — the default fetchers
read the permissive files' contents and the publickey attempt proceeds to
a successful re-sign using them, instead of failing without a read. -/
theorem c3_code_behavior :
    checkPermission fsPerm userAuthorizedKeysFile [97] = false
    ∧ checkPermission fsPerm userPrivateKeyFile [97] = false
    ∧ fetchAuthorizedKeysFromHomeDir fsPerm [97] = some [75]
    ∧ fetchPrivateKeyFromHomeDir fsPerm [97] = some [1, 2]
    ∧ fetchAuthorizedKeys envP [97] = some [75]
    ∧ fetchPrivateKey envP [97] = some [1, 2]
    ∧ handleAuthMsg envP connA msgSignedA = ⟨some mA, [], false⟩ :=
  ⟨by decide, by decide, rfl, rfl, rfl, rfl, rfl⟩
